import Mathlib

/-!
# Verification of the chicken-count detection pipeline

Shallow embedding of the two detector variants of the `chicken-count`
repository:

* the generic COCO-SSD detector (`chicken-count.js`), and
* the binary Teachable-Machine classifier
  (`chicken-count-teachable.js`, and its English-label copy in the
  unnamed source file).

JavaScript numbers are modelled as rationals (`ℚ`), byte values as `Nat`,
and fallible operations (file loading, model inference on malformed
input, `Array.prototype.reduce` on an empty array) as `Option`.
External collaborators — the image decoder (Jimp), the models — are
passed in as explicit functions, mirroring the spec's treatment of them
as opaque services.
-/

namespace ChickenCount

/-- A decoded Jimp image bitmap: `image.bitmap` has `width`, `height`
and an RGBA byte array `data` (4 bytes per pixel). -/
structure Bitmap where
  width : Nat
  height : Nat
  data : List Nat
  deriving DecidableEq, Repr

/-- Embeds the tensor-construction loop shared by both variants
(`chicken-count.js` lines 58–66, `chicken-count-teachable.js` lines
64–71): `image.scan(0, 0, width, height, cb)` iterates pixels row-major
(`y` outer, `x` inner) with `idx = (width * y + x) * 4`, and the callback
pushes `data[idx] / 255`, `data[idx+1] / 255`, `data[idx+2] / 255`
(R, G, B; the alpha byte at `idx+3` is skipped). Out-of-range reads
(impossible for a well-formed Jimp bitmap) default to byte 0. -/
def imageArray (bm : Bitmap) : List ℚ :=
  ((List.range bm.height).map (fun y =>
    ((List.range bm.width).map (fun x =>
      let idx := (bm.width * y + x) * 4
      [(bm.data.getD idx 0 : ℚ) / 255,
       (bm.data.getD (idx + 1) 0 : ℚ) / 255,
       (bm.data.getD (idx + 2) 0 : ℚ) / 255])).flatten)).flatten

/-- One COCO-SSD raw prediction: `{class, score, bbox}`. -/
structure Prediction where
  cls : String
  score : ℚ
  bbox : ℚ × ℚ × ℚ × ℚ
  deriving DecidableEq, Repr

/-- The record returned by the generic `detectChickens`
(`chicken-count.js` lines 83–89). -/
structure DetectionResults where
  totalDetections : Nat
  birdDetections : Nat
  allPredictions : List Prediction
  birdPredictions : List Prediction
  imageSize : Nat × Nat
  deriving DecidableEq, Repr

/-- The external collaborators of the generic variant: `load` is
`fs.existsSync` + `Jimp.read` (`none` on a missing file or a decode
failure, both of which throw in the source), `model` is the loaded
COCO-SSD model's `detect` applied to the tensor built from
`imageArray`. -/
structure GenEnv where
  load : String → Option Bitmap
  model : List ℚ → List Prediction

/-- The filter applied to raw predictions (`chicken-count.js` lines
76–78): `prediction.class === 'bird' && prediction.score > 0.5`. -/
def birdPred (p : Prediction) : Bool :=
  p.cls == "bird" && decide (mkRat 5 10 < p.score)

/-- Generic `detectChickens(imagePath)` (`chicken-count.js` lines
41–90). A missing file or an unreadable image throws, modelled as
`none`; otherwise the image is converted to a normalized tensor, the
model is run, and bird predictions with score above 0.5 are filtered
out of the full list. -/
def detectChickensGen (env : GenEnv) (imagePath : String) :
    Option DetectionResults :=
  match env.load imagePath with
  | none => none
  | some image =>
    let width := image.width
    let height := image.height
    let arr := imageArray image
    let predictions := env.model arr
    let birdPredictions := predictions.filter birdPred
    some
      { totalDetections := predictions.length
        birdDetections := birdPredictions.length
        allPredictions := predictions
        birdPredictions := birdPredictions
        imageSize := (width, height) }

/-- Generic `processImage(imagePath)` (`chicken-count.js` lines
121–130): `try { detectChickens; displayResults; return results }
catch { return null }`. Display is a pure console side effect, so the
embedding is the detection result with failures mapped to `none`. -/
def processImageGen (env : GenEnv) (imagePath : String) :
    Option DetectionResults :=
  detectChickensGen env imagePath

/-- The `for (const imagePath of imagePaths)` loop of the generic
`processMultipleImages`, with the two mutable variables `results` and
`totalChickens` passed as explicit state: `if (result)` pushes
`{imagePath, result}` and adds `result.birdDetections` to
`totalChickens`; a null result changes nothing. -/
def processMultipleImagesGenLoop (env : GenEnv) (imagePaths : List String)
    (results : List (String × DetectionResults)) (totalChickens : Nat) :
    List (String × DetectionResults) × Nat :=
  match imagePaths with
  | [] => (results, totalChickens)
  | imagePath :: rest =>
    match processImageGen env imagePath with
    | some result =>
      processMultipleImagesGenLoop env rest (results ++ [(imagePath, result)])
        (totalChickens + result.birdDetections)
    | none => processMultipleImagesGenLoop env rest results totalChickens

/-- Generic `processMultipleImages(imagePaths)` (`chicken-count.js`
lines 133–153). The loop pushes `{imagePath, result}` ONLY when
`result` is non-null, and adds `result.birdDetections` to
`totalChickens`. The source function returns `results`; the pair's
second component is the `totalChickens` value printed in the batch
summary. -/
def processMultipleImagesGen (env : GenEnv) (imagePaths : List String) :
    List (String × DetectionResults) × Nat :=
  processMultipleImagesGenLoop env imagePaths [] 0

/-! ## Binary (Teachable Machine) variant -/

/-- One interpreted classifier prediction: `{class, confidence}`
(`chicken-count-teachable.js` lines 88–93). -/
structure TMPrediction where
  cls : String
  confidence : ℚ
  deriving DecidableEq, Repr

/-- The label lookup `classes[i] || ...` with the template `Class ${i}`
as fallback: a JS index out of range yields `undefined`, and
`undefined` and the empty string are both falsy, so either falls back
to the synthesized label. -/
def labelAt (classes : List String) (i : Nat) : String :=
  match classes.get? i with
  | some s => if s = "" then "Class " ++ toString i else s
  | none => "Class " ++ toString i

/-- The interpretation loop (`chicken-count-teachable.js` lines 86–93):
`for (let i = 0; i < predictionData.length; i++) results.push({class:
classes[i] || ..., confidence: predictionData[i]})`. -/
def interpretPredictions (classes : List String) (predictionData : List ℚ) :
    List TMPrediction :=
  (List.range predictionData.length).map (fun i =>
    { cls := labelAt classes i, confidence := predictionData.getD i 0 })

/-- JavaScript `Array.prototype.reduce(f)` with no initial value:
throws a `TypeError` on an empty array (modelled as `none`), otherwise
folds `f` left-to-right starting from the first element. -/
def reduce1 {α : Type} (f : α → α → α) : List α → Option α
  | [] => none
  | x :: xs => some (xs.foldl f x)

/-- The reducer `(prev, current) => (prev.confidence >
current.confidence) ? prev : current` (`chicken-count-teachable.js`
lines 96–98). Note the accumulator `prev` is kept only when strictly
greater; on a tie `current` replaces it. -/
def tmMax (prev current : TMPrediction) : TMPrediction :=
  if prev.confidence > current.confidence then prev else current

/-- Best-prediction selection (`chicken-count-teachable.js` lines
96–98): `results.reduce((prev, current) => ...)` with no initial
value. -/
def bestOf (results : List TMPrediction) : Option TMPrediction :=
  reduce1 tmMax results

/-- The record returned by the binary `detectChickens`
(`chicken-count-teachable.js` lines 100–106, with the English labels of
the unnamed copy, lines 126–132). -/
structure TMResults where
  predictions : List TMPrediction
  bestPrediction : TMPrediction
  isChicken : Bool
  confidence : ℚ
  imageSize : Nat × Nat
  deriving DecidableEq, Repr

/-- Jimp `image.resize(w, h)`: resamples the pixel data to the target
dimensions. Jimp transform methods MUTATE the image in place and return
`this`, so after `const resized = image.resize(224, 224)` the names
`image` and `resized` alias one object whose bitmap is the resized one.
The resampling algorithm is external to this repository; only the
resulting byte data is abstracted (as the `resample` collaborator). -/
def jimpResize (resample : Bitmap → Nat → Nat → List Nat)
    (bm : Bitmap) (w h : Nat) : Bitmap :=
  { width := w, height := h, data := resample bm w h }

/-- The external collaborators of the binary variant: `load` as in
`GenEnv`, `resample` is Jimp's resize resampling, `model` is the loaded
layers model's `predict` followed by `.data()`, giving one score per
output unit. -/
structure TMEnv where
  load : String → Option Bitmap
  resample : Bitmap → Nat → Nat → List Nat
  model : List ℚ → List ℚ

/-- The label list hard-coded in the English copy (`src/unnamed`,
line 111): `const classes = ['No Chicken', 'Chicken']`. -/
def tmClasses : List String := ["No Chicken", "Chicken"]

/-- Binary `detectChickens(imagePath)` (`chicken-count-teachable.js`
lines 45–107, English-label copy lines 71–133). The image is resized in
place to 224×224, converted to a normalized tensor, classified, the
scores are paired with labels, and the best prediction is selected by
`reduce` — which throws on an empty score vector (`none`). Because Jimp
`resize` mutates in place, the final `image.bitmap.width/height` read
for `imageSize` sees the RESIZED bitmap. -/
def detectChickensTM (env : TMEnv) (imagePath : String) :
    Option TMResults :=
  match env.load imagePath with
  | none => none
  | some image =>
    let resized := jimpResize env.resample image 224 224
    -- the source destructures `const { width, height } = resized.bitmap`
    -- for the Float32Array allocation and tensor shape, both of which are
    -- folded into `imageArray` here
    let arr := imageArray resized
    let predictionData := env.model arr
    let results := interpretPredictions tmClasses predictionData
    match bestOf results with
    | none => none
    | some bestPrediction =>
      some
        { predictions := results
          bestPrediction := bestPrediction
          isChicken := bestPrediction.cls == "Chicken" &&
            decide (mkRat 7 10 < bestPrediction.confidence)
          confidence := bestPrediction.confidence
          -- source: `image.bitmap.width/height`; `image` aliases
          -- `resized` after the in-place resize
          imageSize := (resized.width, resized.height) }

/-- Binary `processImage(imagePath)` (`chicken-count-teachable.js`
lines 130–139): try/`displayResults`/return, catch → null. -/
def processImageTM (env : TMEnv) (imagePath : String) : Option TMResults :=
  detectChickensTM env imagePath

/-- The `for (const imagePath of imagePaths)` loop of the binary
`processMultipleImages`, with `results` and `totalChickens` as explicit
state: `if (result)` pushes `{imagePath, result}` and
`if (result.isChicken) totalChickens++`; a null result changes
nothing. -/
def processMultipleImagesTMLoop (env : TMEnv) (imagePaths : List String)
    (results : List (String × TMResults)) (totalChickens : Nat) :
    List (String × TMResults) × Nat :=
  match imagePaths with
  | [] => (results, totalChickens)
  | imagePath :: rest =>
    match processImageTM env imagePath with
    | some result =>
      processMultipleImagesTMLoop env rest (results ++ [(imagePath, result)])
        (totalChickens + (if result.isChicken then 1 else 0))
    | none => processMultipleImagesTMLoop env rest results totalChickens

/-- Binary `processMultipleImages(imagePaths)`
(`chicken-count-teachable.js` lines 141–161). As in the generic
variant, only non-null results are pushed; `totalChickens` is
incremented by 1 when `result.isChicken`. -/
def processMultipleImagesTM (env : TMEnv) (imagePaths : List String) :
    List (String × TMResults) × Nat :=
  processMultipleImagesTMLoop env imagePaths [] 0

/-! ## Directory handling in `main` -/

/-- The extension test `/\.(jpe?g|png|bmp|gif)$/i.test(file)`
(`chicken-count.js` line 187, `chicken-count-teachable.js` line 193):
the file name ends, case-insensitively, in `.jpg`, `.jpeg`, `.png`,
`.bmp` or `.gif` (`$` anchors at end of string; `/i` makes the letters
case-insensitive, modelled by lowercasing the characters; suffix
matching is on the character sequence of the name). -/
def imageExtTest (file : String) : Bool :=
  let l := file.data.map Char.toLower
  (".jpg".data.isSuffixOf l) || (".jpeg".data.isSuffixOf l) ||
    (".png".data.isSuffixOf l) || (".bmp".data.isSuffixOf l) ||
    (".gif".data.isSuffixOf l)

/-- Node `path.join(imagePath, file)` for a directory path and an
entry name. -/
def pathJoin (dir file : String) : String := dir ++ "/" ++ file

/-- Outcome of the directory branch of `main`: either the early return
with "No image files found in the directory." or a call to
`processMultipleImages` on the joined paths. -/
inductive DirOutcome where
  | noImages : DirOutcome
  | batch : List String → DirOutcome
  deriving DecidableEq, Repr

/-- The directory branch of `main` (`chicken-count.js` lines 184–195,
`chicken-count-teachable.js` lines 191–201): filter the listing by the
extension regex, join with the directory path, and either report zero
images found (empty) or process the batch. -/
def mainDirectory (dirPath : String) (entries : List String) : DirOutcome :=
  let files := (entries.filter imageExtTest).map (fun file => pathJoin dirPath file)
  if files.length = 0 then DirOutcome.noImages else DirOutcome.batch files

/-! ## Concrete test fixtures

Concrete instantiations of the external collaborators, used to evaluate
the pipeline on closed inputs. -/

/-- A 1×1 RGBA bitmap with one mid-grey pixel. -/
def onePixel : Bitmap := { width := 1, height := 1, data := [10, 20, 30, 40] }

/-- Two bird detections, scores 0.9 and 0.8. -/
def twoBirdsPredictions : List Prediction :=
  [{ cls := "bird", score := mkRat 9 10, bbox := (0, 0, 1, 1) },
   { cls := "bird", score := mkRat 8 10, bbox := (0, 0, 1, 1) }]

/-- Generic environment whose model reports two birds (scores 0.9 and
0.8) on every image, as in a batch over one image containing two
chickens. -/
def envTwoBirds : GenEnv :=
  { load := fun _ => some onePixel
    model := fun _ => twoBirdsPredictions }

/-- The detection result `envTwoBirds` produces for any path: both
predictions pass the bird filter. -/
def twoBirdsResult : DetectionResults :=
  { totalDetections := 2
    birdDetections := 2
    allPredictions := twoBirdsPredictions
    birdPredictions := twoBirdsPredictions
    imageSize := (1, 1) }

/-- Binary environment for spec Scenario B: the model outputs scores
`[0.152, 0.848]` (labels `["No Chicken", "Chicken"]`). -/
def envScenarioB : TMEnv :=
  { load := fun _ => some onePixel
    resample := fun _ _ _ => []
    model := fun _ => [mkRat 152 1000, mkRat 848 1000] }

/-- The classification result `envScenarioB` produces for any path. -/
def scenarioBResult : TMResults :=
  { predictions := [{ cls := "No Chicken", confidence := mkRat 152 1000 },
                    { cls := "Chicken", confidence := mkRat 848 1000 }]
    bestPrediction := { cls := "Chicken", confidence := mkRat 848 1000 }
    isChicken := true
    confidence := mkRat 848 1000
    imageSize := (224, 224) }

/-- Binary environment where `bad.jpg` fails to load (missing or
corrupt file) and every other path loads; the model classifies
everything as a chicken with score 0.9. -/
def envOneBad : TMEnv :=
  { load := fun p => if p = "bad.jpg" then none else some onePixel
    resample := fun _ _ _ => []
    model := fun _ => [mkRat 1 10, mkRat 9 10] }

/-- Binary environment whose loader yields a 640×480 original image and
whose model returns a single score. -/
def envOriginal640 : TMEnv :=
  { load := fun _ => some { width := 640, height := 480, data := [] }
    resample := fun _ _ _ => []
    model := fun _ => [1] }

/-- Binary environment whose model returns an empty score vector. -/
def envEmptyOutput : TMEnv :=
  { load := fun _ => some onePixel
    resample := fun _ _ _ => []
    model := fun _ => [] }

/-! ## Helper lemmas -/

/-- Flattening a row-major grid of lists indexed by `w * y + x` is the
same as flattening the list indexed by a single pixel counter. -/
theorem grid_flatten {α : Type} (f : Nat → List α) (h w : Nat) :
    ((List.range h).map
      (fun y => ((List.range w).map (fun x => f (w * y + x))).flatten)).flatten =
      ((List.range (h * w)).map f).flatten := by
  induction h with
  | zero => simp
  | succ n ih =>
    rw [List.range_succ, List.map_append, List.flatten_append, ih, Nat.succ_mul,
        List.range_add, List.map_append, List.flatten_append]
    simp [List.map_map, Function.comp_def, Nat.mul_comm]

/-- The nested row-major scan of `imageArray` collapses to a single
pass over pixel indices `0, …, height*width - 1`, each contributing the
three normalized RGB components at byte offset `4 * pixel`. -/
theorem imageArray_eq (bm : Bitmap) :
    imageArray bm =
      ((List.range (bm.height * bm.width)).map (fun p =>
        [(bm.data.getD (p * 4) 0 : ℚ) / 255,
         (bm.data.getD (p * 4 + 1) 0 : ℚ) / 255,
         (bm.data.getD (p * 4 + 2) 0 : ℚ) / 255])).flatten := by
  unfold imageArray
  exact grid_flatten
    (fun p =>
      [(bm.data.getD (p * 4) 0 : ℚ) / 255,
       (bm.data.getD (p * 4 + 1) 0 : ℚ) / 255,
       (bm.data.getD (p * 4 + 2) 0 : ℚ) / 255])
    bm.height bm.width

/-- The tensor array has exactly `height * width * 3` entries. -/
theorem imageArray_length (bm : Bitmap) :
    (imageArray bm).length = bm.height * bm.width * 3 := by
  rw [imageArray_eq, List.length_flatten, List.map_map]
  simp [Function.comp_def, List.map_const]

/-- Every byte read from the pixel data of a bitmap whose bytes are at
most 255 (including the out-of-range default 0) is at most 255. -/
theorem getD_byte_le (bm : Bitmap) (hb : ∀ b ∈ bm.data, b ≤ 255) (i : Nat) :
    bm.data.getD i 0 ≤ 255 := by
  rw [List.getD_eq_getElem?_getD]
  cases hg : bm.data[i]? with
  | none => simp
  | some b => simpa using hb b (List.getElem?_mem hg)

/-- A byte value at most 255, divided by 255, lies in `[0, 1]`. -/
theorem byte_div_bound (d : Nat) (hd : d ≤ 255) :
    0 ≤ (d : ℚ) / 255 ∧ (d : ℚ) / 255 ≤ 1 := by
  constructor
  · positivity
  · rw [div_le_one (by norm_num : (0 : ℚ) < 255)]
    exact_mod_cast hd

/-- Every entry of the tensor array lies in `[0, 1]` when the pixel
bytes are valid (at most 255). -/
theorem imageArray_mem_bounds (bm : Bitmap) (hb : ∀ b ∈ bm.data, b ≤ 255) :
    ∀ q ∈ imageArray bm, 0 ≤ q ∧ q ≤ 1 := by
  intro q hq
  rw [imageArray_eq] at hq
  rw [List.mem_flatten] at hq
  obtain ⟨l, hl, hql⟩ := hq
  rw [List.mem_map] at hl
  obtain ⟨p, _, rfl⟩ := hl
  simp only [List.mem_cons, List.not_mem_nil, or_false] at hql
  rcases hql with rfl | rfl | rfl
  all_goals exact byte_div_bound _ (getD_byte_le bm hb _)

/-- The binary batch loop in closed form: starting from accumulated
state `(acc, n)`, it appends exactly the non-null results in input
order and adds the count of chicken-positive results. -/
theorem processMultipleImagesTMLoop_eq (env : TMEnv) :
    ∀ (paths : List String) (acc : List (String × TMResults)) (n : Nat),
      processMultipleImagesTMLoop env paths acc n =
        (acc ++ paths.filterMap (fun p => (processImageTM env p).map (fun r => (p, r))),
         n + ((paths.filterMap (fun p => (processImageTM env p).map (fun r => (p, r)))).map
           (fun e => if e.2.isChicken then 1 else 0)).sum) := by
  intro paths
  induction paths with
  | nil => intro acc n; simp [processMultipleImagesTMLoop]
  | cons p ps ih =>
    intro acc n
    cases hf : processImageTM env p with
    | none =>
      simp only [processMultipleImagesTMLoop, hf, List.filterMap_cons, Option.map_none']
      exact ih acc n
    | some r =>
      simp only [processMultipleImagesTMLoop, hf, List.filterMap_cons, Option.map_some']
      rw [ih]
      simp [List.append_assoc, Nat.add_assoc]

/-- The binary `processMultipleImages` in closed form. -/
theorem processMultipleImagesTM_eq (env : TMEnv) (paths : List String) :
    processMultipleImagesTM env paths =
      (paths.filterMap (fun p => (processImageTM env p).map (fun r => (p, r))),
       ((paths.filterMap (fun p => (processImageTM env p).map (fun r => (p, r)))).map
         (fun e => if e.2.isChicken then 1 else 0)).sum) := by
  have h := processMultipleImagesTMLoop_eq env paths [] 0
  simpa [processMultipleImagesTM] using h

/-- The generic batch loop in closed form: starting from accumulated
state `(acc, n)`, it appends exactly the non-null results in input
order and adds the sum of their `birdDetections` counts. -/
theorem processMultipleImagesGenLoop_eq (env : GenEnv) :
    ∀ (paths : List String) (acc : List (String × DetectionResults)) (n : Nat),
      processMultipleImagesGenLoop env paths acc n =
        (acc ++ paths.filterMap (fun p => (processImageGen env p).map (fun r => (p, r))),
         n + ((paths.filterMap (fun p => (processImageGen env p).map (fun r => (p, r)))).map
           (fun e => e.2.birdDetections)).sum) := by
  intro paths
  induction paths with
  | nil => intro acc n; simp [processMultipleImagesGenLoop]
  | cons p ps ih =>
    intro acc n
    cases hf : processImageGen env p with
    | none =>
      simp only [processMultipleImagesGenLoop, hf, List.filterMap_cons, Option.map_none']
      exact ih acc n
    | some r =>
      simp only [processMultipleImagesGenLoop, hf, List.filterMap_cons, Option.map_some']
      rw [ih]
      simp [List.append_assoc, Nat.add_assoc]

/-- The generic `processMultipleImages` in closed form. -/
theorem processMultipleImagesGen_eq (env : GenEnv) (paths : List String) :
    processMultipleImagesGen env paths =
      (paths.filterMap (fun p => (processImageGen env p).map (fun r => (p, r))),
       ((paths.filterMap (fun p => (processImageGen env p).map (fun r => (p, r)))).map
         (fun e => e.2.birdDetections)).sum) := by
  have h := processMultipleImagesGenLoop_eq env paths [] 0
  simpa [processMultipleImagesGen] using h

/-- Summing an indicator over a list counts the elements satisfying the
predicate. -/
theorem sum_ite_eq_countP {α : Type} (p : α → Bool) :
    ∀ l : List α, (l.map (fun a => if p a then 1 else 0)).sum = l.countP p := by
  intro l
  induction l with
  | nil => simp
  | cons a l ih => simp [List.countP_cons, ih, Nat.add_comm]

/-- Left fold of the strict-greater reducer over a nonempty list: the
result occurs in the list, every score is at most its score, and every
entry strictly AFTER its occurrence has a strictly smaller score (the
reducer replaces the accumulator on ties, so the last maximal entry
wins). -/
theorem foldl_tmMax_decomp (xs : List TMPrediction) :
    ∀ x : TMPrediction,
      ∃ pre post,
        x :: xs = pre ++ (xs.foldl tmMax x) :: post ∧
        (∀ p ∈ x :: xs, p.confidence ≤ (xs.foldl tmMax x).confidence) ∧
        (∀ p ∈ post, p.confidence < (xs.foldl tmMax x).confidence) := by
  induction xs with
  | nil =>
    intro x
    refine ⟨[], [], rfl, ?_, ?_⟩
    · intro p hp
      rw [List.mem_singleton] at hp
      exact hp ▸ le_refl _
    · intro p hp
      cases hp
  | cons y ys ih =>
    intro x
    rw [List.foldl_cons]
    by_cases hxy : y.confidence < x.confidence
    · have hstep : tmMax x y = x := if_pos hxy
      rw [hstep]
      obtain ⟨pre, post, hdec, hle, hlt⟩ := ih x
      cases pre with
      | nil =>
        rw [List.nil_append, List.cons_eq_cons] at hdec
        obtain ⟨hb, hpost⟩ := hdec
        subst hpost
        rw [← hb] at hle hlt ⊢
        refine ⟨[], y :: ys, rfl, ?_, ?_⟩
        · intro p hp
          rcases List.mem_cons.mp hp with rfl | hp'
          · exact le_refl _
          · rcases List.mem_cons.mp hp' with rfl | hp''
            · exact le_of_lt hxy
            · exact hle p (List.mem_cons_of_mem _ hp'')
        · intro p hp
          rcases List.mem_cons.mp hp with rfl | hp'
          · exact hxy
          · exact hlt p hp'
      | cons q pre' =>
        rw [List.cons_append, List.cons_eq_cons] at hdec
        obtain ⟨hq, hys⟩ := hdec
        refine ⟨x :: y :: pre', post, ?_, ?_, hlt⟩
        · rw [List.cons_append, List.cons_append, ← hys]
        · intro p hp
          rcases List.mem_cons.mp hp with rfl | hp'
          · exact hle p (List.mem_cons_self _ _)
          · rcases List.mem_cons.mp hp' with rfl | hp''
            · exact le_trans (le_of_lt hxy) (hle x (List.mem_cons_self _ _))
            · exact hle p (List.mem_cons_of_mem _ hp'')
    · have hstep : tmMax x y = y := if_neg hxy
      rw [hstep]
      obtain ⟨pre, post, hdec, hle, hlt⟩ := ih y
      refine ⟨x :: pre, post, ?_, ?_, hlt⟩
      · rw [List.cons_append, ← hdec]
      · intro p hp
        rcases List.mem_cons.mp hp with rfl | hp'
        · exact le_trans (not_lt.mp hxy) (hle y (List.mem_cons_self _ _))
        · exact hle p hp'

/-! ## Claims -/

/-- Claim C1, counterexample: in the generic variant, for the one-path
batch over an image with two bird detections, the reported total is 2 —
the SUM of `birdDetections` — while only 1 non-null result satisfies
the positive condition `filteredCount > 0`, and only 1 image was
successfully processed (so the total also exceeds the number of
processed images). -/
theorem claim1_counterexample :
    (processMultipleImagesGen envTwoBirds ["a.jpg"]).2 = 2 ∧
    (processMultipleImagesGen envTwoBirds ["a.jpg"]).1.countP
      (fun e => decide (0 < e.2.birdDetections)) = 1 ∧
    (processMultipleImagesGen envTwoBirds ["a.jpg"]).1.length = 1 := by
  decide

/-- Claim C1 (amended): in the binary variant, `totalChickens` equals
the count of non-null results with `isChicken` true, and never exceeds
the number of successfully processed images; in the generic variant,
`totalChickens` is the SUM of `birdDetections` over the non-null
results (not a count of positive images). -/
theorem claim1_amended_totals (envT : TMEnv) (pathsT : List String)
    (envG : GenEnv) (pathsG : List String) :
    (processMultipleImagesTM envT pathsT).2 =
      (processMultipleImagesTM envT pathsT).1.countP (fun e => e.2.isChicken) ∧
    (processMultipleImagesTM envT pathsT).2 ≤
      (processMultipleImagesTM envT pathsT).1.length ∧
    (processMultipleImagesGen envG pathsG).2 =
      ((processMultipleImagesGen envG pathsG).1.map
        (fun e => e.2.birdDetections)).sum := by
  refine ⟨?_, ?_, ?_⟩
  · rw [processMultipleImagesTM_eq]
    exact sum_ite_eq_countP _ _
  · rw [processMultipleImagesTM_eq]
    exact le_trans (le_of_eq (sum_ite_eq_countP _ _)) (List.countP_le_length _)
  · rw [processMultipleImagesGen_eq]

/-- Claim C2, counterexample: a batch over two paths of which the first
fails to load yields a result list with a single entry — the failed
path's entry is omitted, not recorded as null. -/
theorem claim2_counterexample :
    (processMultipleImagesTM envOneBad ["bad.jpg", "good.jpg"]).1.length = 1 ∧
    ["bad.jpg", "good.jpg"].length = 2 ∧
    processImageTM envOneBad "bad.jpg" = none := by
  decide

/-- Claim C2 (amended): in both variants the batch result list contains
exactly one entry per SUCCESSFULLY processed input path, in input
order; a path whose per-image processing failed is omitted from the
list entirely (rather than recorded as null), and the batch is not
aborted — subsequent paths are still processed. -/
theorem claim2_amended_batch_entries (envT : TMEnv) (envG : GenEnv)
    (paths : List String) :
    (processMultipleImagesTM envT paths).1 =
      paths.filterMap (fun p => (processImageTM envT p).map (fun r => (p, r))) ∧
    (processMultipleImagesGen envG paths).1 =
      paths.filterMap (fun p => (processImageGen envG p).map (fun r => (p, r))) := by
  constructor
  · rw [processMultipleImagesTM_eq]
  · rw [processMultipleImagesGen_eq]

/-- Claim C3, counterexample: on the tied prediction list
`[("A", 0.5), ("B", 0.5)]` the reduction selects the LAST occurrence
`("B", 0.5)`, not the first — the accumulator is replaced whenever it
is not strictly greater than the current entry. -/
theorem claim3_counterexample :
    bestOf [{ cls := "A", confidence := mkRat 5 10 }, { cls := "B", confidence := mkRat 5 10 }] =
      some { cls := "B", confidence := mkRat 5 10 } ∧
    ({ cls := "B", confidence := mkRat 5 10 } : TMPrediction) ≠
      { cls := "A", confidence := mkRat 5 10 } := by
  decide

/-- Claim C3 (amended): for every non-empty raw prediction list, the
interpreter selects as best prediction an entry with the maximum score,
breaking ties by LAST occurrence (highest index) — the running best is
replaced whenever its score does not strictly exceed the current
entry's — and the selection is deterministic (any two runs agree). -/
theorem claim3_amended_best_selection (results : List TMPrediction)
    (hne : results ≠ []) :
    ∃ b pre post,
      bestOf results = some b ∧
      results = pre ++ b :: post ∧
      (∀ p ∈ results, p.confidence ≤ b.confidence) ∧
      (∀ p ∈ post, p.confidence < b.confidence) ∧
      (∀ b2, bestOf results = some b2 → b2 = b) := by
  cases results with
  | nil => exact absurd rfl hne
  | cons x xs =>
    obtain ⟨pre, post, hdec, hle, hlt⟩ := foldl_tmMax_decomp xs x
    refine ⟨xs.foldl tmMax x, pre, post, rfl, hdec, hle, hlt, ?_⟩
    intro b2 hb2
    rw [show bestOf (x :: xs) = some (xs.foldl tmMax x) from rfl] at hb2
    exact (Option.some.inj hb2).symm

/-- Claim C3, witness: the amended theorem applies to the concrete
non-empty list `[("A", 0.3), ("B", 0.7)]` and pins down its best
prediction. -/
theorem claim3_witness :
    bestOf [{ cls := "A", confidence := mkRat 3 10 }, { cls := "B", confidence := mkRat 7 10 }] =
      some { cls := "B", confidence := mkRat 7 10 } := by
  obtain ⟨b, pre, post, hbest, hdec, hle, hlt, huniq⟩ :=
    claim3_amended_best_selection
      [{ cls := "A", confidence := mkRat 3 10 }, { cls := "B", confidence := mkRat 7 10 }]
      (by decide)
  have h07 : ({ cls := "B", confidence := mkRat 7 10 } : TMPrediction) = b :=
    huniq _ (by decide)
  rw [hbest, ← h07]

/-- The decimal threshold 0.7 as an explicit rational. -/
theorem q_07_eq : (0.7 : ℚ) = mkRat 7 10 := by
  norm_num [Rat.mkRat_eq_div]

/-- The decimal threshold 0.5 as an explicit rational. -/
theorem q_05_eq : (0.5 : ℚ) = mkRat 5 10 := by
  norm_num [Rat.mkRat_eq_div]

/-- The decimal score 0.848 as an explicit rational. -/
theorem q_0848_eq : (0.848 : ℚ) = mkRat 848 1000 := by
  norm_num [Rat.mkRat_eq_div]

/-- Claim C4: in the binary variant, `decision` (`isChicken`) is true
exactly when the best prediction's label equals the positive-class
label "Chicken" AND its score strictly exceeds 0.7; and on Scenario B
(scores `[0.152, 0.848]` with labels `["No Chicken", "Chicken"]`) the
best prediction is `("Chicken", 0.848)` and the decision is true. -/
theorem claim4_decision_rule :
    (∀ (env : TMEnv) (p : String) (r : TMResults),
      detectChickensTM env p = some r →
      (r.isChicken = true ↔
        r.bestPrediction.cls = "Chicken" ∧
          (0.7 : ℚ) < r.bestPrediction.confidence)) ∧
    (detectChickensTM envScenarioB "img.jpg").map
      (fun r => (r.bestPrediction, r.isChicken)) =
      some ({ cls := "Chicken", confidence := 0.848 }, true) := by
  constructor
  · intro env p r hr
    simp only [detectChickensTM] at hr
    split at hr
    · cases hr
    · split at hr
      · cases hr
      · injection hr with hr'
        subst hr'
        rw [q_07_eq]
        simp [Bool.and_eq_true, beq_iff_eq, decide_eq_true_eq]
  · rw [q_0848_eq]
    decide

/-- Claim C4, witness: the decision rule applies to the concrete
Scenario B result. -/
theorem claim4_witness :
    scenarioBResult.isChicken = true ↔
      scenarioBResult.bestPrediction.cls = "Chicken" ∧
        (0.7 : ℚ) < scenarioBResult.bestPrediction.confidence :=
  claim4_decision_rule.1 envScenarioB "img.jpg" scenarioBResult (by decide)

/-- Claim C5: for every pixel buffer with byte values in `[0, 255]`,
the built tensor array has exactly `height × width × 3` elements,
produced in row-major pixel order by taking the first 3 color
components of each pixel (the bytes at offsets `4p`, `4p+1`, `4p+2`
for pixel counter `p`, dropping the alpha byte) divided by 255, and
every element lies in `[0, 1]`. -/
theorem claim5_tensor_build (bm : Bitmap) (hb : ∀ b ∈ bm.data, b ≤ 255) :
    (imageArray bm).length = bm.height * bm.width * 3 ∧
    imageArray bm =
      ((List.range (bm.height * bm.width)).map (fun p =>
        [(bm.data.getD (p * 4) 0 : ℚ) / 255,
         (bm.data.getD (p * 4 + 1) 0 : ℚ) / 255,
         (bm.data.getD (p * 4 + 2) 0 : ℚ) / 255])).flatten ∧
    ∀ q ∈ imageArray bm, 0 ≤ q ∧ q ≤ 1 :=
  ⟨imageArray_length bm, imageArray_eq bm, imageArray_mem_bounds bm hb⟩

/-- Claim C5, witness: the tensor built from the concrete 1×1 bitmap
has 1×1×3 entries. -/
theorem claim5_witness : (imageArray onePixel).length = 1 * 1 * 3 :=
  (claim5_tensor_build onePixel (by decide)).1

/-- Claim C6: in the generic variant, the filtered list contains
exactly the raw predictions whose class is "bird" with score strictly
above 0.5, preserves their relative order (it is a sublist of the full
list), and `filteredCount ≤ totalCount`. -/
theorem claim6_bird_filter (env : GenEnv) (p : String) (r : DetectionResults)
    (hr : detectChickensGen env p = some r) :
    r.birdDetections ≤ r.totalDetections ∧
    r.birdPredictions.Sublist r.allPredictions ∧
    (∀ q, q ∈ r.birdPredictions ↔
      q ∈ r.allPredictions ∧ q.cls = "bird" ∧ (0.5 : ℚ) < q.score) ∧
    r.birdPredictions = r.allPredictions.filter birdPred := by
  simp only [detectChickensGen] at hr
  split at hr
  · cases hr
  · injection hr with hr'
    subst hr'
    refine ⟨?_, ?_, ?_, rfl⟩
    · exact List.length_filter_le _ _
    · exact List.filter_sublist _
    · intro q
      rw [q_05_eq]
      simp [List.mem_filter, birdPred, Bool.and_eq_true, beq_iff_eq,
        decide_eq_true_eq, and_assoc]

/-- Claim C6, witness: the filter characterization applies to the
concrete two-bird detection result. -/
theorem claim6_witness :
    twoBirdsResult.birdPredictions = twoBirdsResult.allPredictions.filter birdPred :=
  (claim6_bird_filter envTwoBirds "a.jpg" twoBirdsResult (by decide)).2.2.2

/-- Claim C7 (code bug): the binary variant's `imageSize` does NOT
report the original dimensions. Jimp's `resize` mutates the image in
place, so for an original 640×480 image the returned `imageSize` is
224×224 — contradicting the claim and the code's own console label
"Original image size". -/
theorem claim7_imageSize_bug :
    envOriginal640.load "photo.jpg" =
      some { width := 640, height := 480, data := [] } ∧
    (detectChickensTM envOriginal640 "photo.jpg").map (fun r => r.imageSize) =
      some (224, 224) := by
  decide

/-- Claim C8: for a directory listing, the set of paths processed is
exactly the entries passing the case-insensitive extension test
(`.jpg .jpeg .png .bmp .gif`), joined with the directory path, in
directory-listing order (the filter is a sublist of the listing); if no
entry matches, batch processing is skipped entirely (the zero-images
outcome is reported). -/
theorem claim8_directory_filter (dirPath : String) (entries : List String) :
    (mainDirectory dirPath entries = DirOutcome.noImages ↔
      entries.filter imageExtTest = []) ∧
    (entries.filter imageExtTest ≠ [] →
      mainDirectory dirPath entries =
        DirOutcome.batch ((entries.filter imageExtTest).map
          (fun file => pathJoin dirPath file))) ∧
    (entries.filter imageExtTest).Sublist entries ∧
    (∀ e, e ∈ entries.filter imageExtTest ↔
      e ∈ entries ∧ imageExtTest e = true) := by
  refine ⟨?_, ?_, List.filter_sublist _, fun e => List.mem_filter⟩
  · simp only [mainDirectory]
    rcases eq_or_ne (entries.filter imageExtTest) [] with hf | hf
    · simp [hf]
    · rw [if_neg (by simp [List.length_eq_zero, hf])]
      simp [hf]
  · intro hne
    simp only [mainDirectory]
    rw [if_neg (by simp [List.length_eq_zero, hne])]

/-- Claim C8, witness: a concrete listing with one matching entry
(case-insensitively) is processed as a one-element batch. -/
theorem claim8_witness :
    mainDirectory "photos" ["a.JPG", "b.txt"] =
      DirOutcome.batch ["photos/a.JPG"] := by
  have h := (claim8_directory_filter "photos" ["a.JPG", "b.txt"]).2.1 (by decide)
  rw [h]
  decide

/-- Claim C9: in the binary variant, the interpreted prediction list
has exactly one entry per score, in output order; the entry at index
`i` pairs score `i` with the configured label at index `i`, or with the
synthesized label `"Class i"` when the score vector is longer than the
label list (assuming, as for the hard-coded configuration, that no
configured label is the empty string). -/
theorem claim9_label_pairing (classes : List String) (scores : List ℚ)
    (hcl : ∀ c ∈ classes, c ≠ "") :
    (interpretPredictions classes scores).length = scores.length ∧
    ∀ i, i < scores.length →
      (interpretPredictions classes scores)[i]? =
        some { cls := if h : i < classes.length then classes.get ⟨i, h⟩
                      else "Class " ++ toString i,
               confidence := scores.getD i 0 } := by
  constructor
  · simp [interpretPredictions]
  · intro i hi
    have hlab : labelAt classes i =
        if h : i < classes.length then classes.get ⟨i, h⟩
        else "Class " ++ toString i := by
      unfold labelAt
      cases hc : classes.get? i with
      | none =>
        rw [List.get?_eq_none] at hc
        rw [dif_neg (by omega)]
      | some s =>
        have hs : s ≠ "" := hcl s (List.get?_mem hc)
        obtain ⟨hlt, hget⟩ := List.get?_eq_some.mp hc
        rw [dif_pos hlt, hget]
        simp [hs]
    simp [interpretPredictions, List.getElem?_map, List.getElem?_range hi, hlab]

/-- Claim C9, witness: the pairing applies to the configured labels and
the Scenario B score vector; the second entry is
`("Chicken", 0.848)`. -/
theorem claim9_witness :
    (interpretPredictions tmClasses [mkRat 152 1000, mkRat 848 1000])[1]? =
      some { cls := "Chicken", confidence := mkRat 848 1000 } := by
  have h := (claim9_label_pairing tmClasses [mkRat 152 1000, mkRat 848 1000]
    (by decide)).2 1 (by decide)
  rw [h]
  decide

/-- Claim C10: in the binary variant, an empty model output vector
makes the best-prediction reduction throw (it has no initial value), so
`detectChickens` fails and `processImage` yields a null result; in
general every successful `detectChickens` result has a non-empty
prediction list (non-emptiness is a precondition of the selection). -/
theorem claim10_empty_scores (env : TMEnv) (p : String) (bm : Bitmap)
    (hload : env.load p = some bm)
    (hm : env.model (imageArray (jimpResize env.resample bm 224 224)) = []) :
    detectChickensTM env p = none ∧ processImageTM env p = none ∧
    (∀ (env2 : TMEnv) (p2 : String) (r : TMResults),
      detectChickensTM env2 p2 = some r → r.predictions ≠ []) := by
  have hdet : detectChickensTM env p = none := by
    simp only [detectChickensTM, hload]
    simp [hm, interpretPredictions, bestOf, reduce1]
  refine ⟨hdet, hdet, ?_⟩
  intro env2 p2 r hr
  simp only [detectChickensTM] at hr
  split at hr
  · cases hr
  · split at hr
    · cases hr
    · next b heq2 =>
        injection hr with hr'
        subst hr'
        intro hnil
        simp only at hnil
        rw [hnil] at heq2
        simp [bestOf, reduce1] at heq2

/-- Claim C10, witness: the empty-output environment yields a null
result for a concrete path. -/
theorem claim10_witness : detectChickensTM envEmptyOutput "img.jpg" = none :=
  (claim10_empty_scores envEmptyOutput "img.jpg" onePixel rfl rfl).1

end ChickenCount
